import Mathlib

/-!
Verification of the salesforce-auth-expo authentication core.

The development shallowly embeds the TypeScript sources:
* `src/storage.ts` — `SecureStorage` (expo-secure-store + async-storage with
  per-write AES keys) and `BrowserStorage` (localStorage/sessionStorage);
* `src/client.ts` — `SalesforceAuthClient` (`signIn`, `signOut`,
  `getUserInfo`, `isAuthenticated`, `exchangeCodeForToken`);
* `src/errors.ts` — the closed error-code set.

External collaborators (the underlying key/value stores, the crypto-es AES
cipher, the entropy source, the browser redirect mechanism, and HTTP
responses) are modelled explicitly: stores as finite maps, AES as an
invertible keyed encoding, randomness as a counter-indexed stream, and the
browser/network results as inputs to the operations.
-/

namespace SfAuth

/-- Model of an external string key/value store (AsyncStorage, SecureStore,
localStorage, sessionStorage): a partial map from keys to values. -/
def KVMap : Type := String → Option String

/-- The empty store. -/
def KVMap.empty : KVMap := fun _ => none

/-- `setItem` on the underlying store. -/
def KVMap.update (m : KVMap) (k v : String) : KVMap :=
  fun q => if q = k then some v else m q

/-- `removeItem` on the underlying store. -/
def KVMap.erase (m : KVMap) (k : String) : KVMap :=
  fun q => if q = k then none else m q

/-- TypeScript truthiness of a `string | null | undefined` value:
`null`/`undefined` and the empty string are falsy. -/
def tsTruthy : Option String → Bool
  | none => false
  | some s => s ≠ ""

/-- Model of `generateRandomString` from `utils.ts` (an external
cryptographically secure entropy source, not in `src/`): the value drawn at
counter position `rng`.  The model returns pairwise-distinct nonempty
strings. -/
def generateRandomString (rng : Nat) : String :=
  String.mk (List.replicate (rng + 1) 'r')

/-- Model of `CryptoES.AES.encrypt(value, key).toString()`: an invertible
keyed encoding (ciphertext determined by key and plaintext, decryptable
with the same key). -/
def aesEncrypt (value key : String) : String :=
  String.mk (key.data ++ value.data)

/-- Model of `CryptoES.AES.decrypt(cipher, key).toString(Utf8)`: inverts
`aesEncrypt` when given the key used at encryption time. -/
def aesDecrypt (cipher key : String) : String :=
  String.mk (cipher.data.drop key.data.length)

/-- State of a `SecureStorage` instance: the external AsyncStorage map (holds
ciphertexts), the external SecureStore map (holds encryption keys), and the
position of the external entropy stream used by `encrypt`. -/
structure SecureState where
  asyncStore : KVMap
  secureStore : KVMap
  rng : Nat

/-- The initial (empty) secure-storage state. -/
def SecureState.empty : SecureState :=
  ⟨KVMap.empty, KVMap.empty, 0⟩

namespace SecureStorage

/-- `SecureStorage.getStorageKey`: namespaces a key by the instance id. -/
def getStorageKey (id key : String) : String :=
  id ++ "." ++ key

/-- `SecureStorage.decrypt`: read the encryption key from the secure store;
if absent (falsy), return `null`; otherwise AES-decrypt the ciphertext. -/
def decrypt (st : SecureState) (storageKey value : String) : Option String :=
  match st.secureStore storageKey with
  | none => none
  | some encryptionKey =>
      if encryptionKey = "" then none
      else some (aesDecrypt value encryptionKey)

/-- `SecureStorage.getItem`: read the ciphertext from AsyncStorage; if falsy
(absent or empty), return `null`; otherwise decrypt. -/
def getItem (id : String) (st : SecureState) (key : String) : Option String :=
  let storageKey := getStorageKey id key
  match st.asyncStore storageKey with
  | none => none
  | some encrypted =>
      if encrypted = "" then none
      else decrypt st storageKey encrypted

/-- `SecureStorage.setItem`: `encrypt` draws a fresh random encryption key,
stores it in the secure store under the storage key, and the ciphertext is
written to AsyncStorage under the same storage key. -/
def setItem (id : String) (st : SecureState) (key value : String) : SecureState :=
  let storageKey := getStorageKey id key
  let encryptionKey := generateRandomString st.rng
  let encrypted := aesEncrypt value encryptionKey
  { asyncStore := st.asyncStore.update storageKey encrypted
    secureStore := st.secureStore.update storageKey encryptionKey
    rng := st.rng + 1 }

/-- `SecureStorage.removeItem`: delete both the AsyncStorage ciphertext and
the SecureStore encryption key. -/
def removeItem (id : String) (st : SecureState) (key : String) : SecureState :=
  let storageKey := getStorageKey id key
  { asyncStore := st.asyncStore.erase storageKey
    secureStore := st.secureStore.erase storageKey
    rng := st.rng }

end SecureStorage

/-- State of a `BrowserStorage` instance: the external `localStorage` and
`sessionStorage` maps. -/
structure BrowserState where
  localStore : KVMap
  sessionStore : KVMap

/-- The initial (empty) browser-storage state. -/
def BrowserState.empty : BrowserState :=
  ⟨KVMap.empty, KVMap.empty⟩

/-- The fixed key namespace of `BrowserStorage` (`keyPrefix` in the source,
renamed here). -/
def browserKeyBase : String := "salesforce_auth"

namespace BrowserStorage

/-- `BrowserStorage.getKey(item)` with an item argument. -/
def getKeyItem (appId item : String) : String :=
  browserKeyBase ++ ":" ++ appId ++ ":" ++ item

/-- `BrowserStorage.getKey()` without an item argument (the legacy
backward-compatibility key). -/
def getKeyLegacy (appId : String) : String :=
  browserKeyBase ++ ":" ++ appId

/-- `BrowserStorage.getItem`: `signInSession` reads sessionStorage (with a
legacy-key fallback); every other key reads localStorage. -/
def getItem (appId : String) (st : BrowserState) (key : String) : Option String :=
  if key = "signInSession" then
    match st.sessionStore (getKeyItem appId key) with
    | some v => some v
    | none => st.sessionStore (getKeyLegacy appId)
  else
    st.localStore (getKeyItem appId key)

/-- `BrowserStorage.setItem`: `signInSession` writes sessionStorage; every
other key writes localStorage. -/
def setItem (appId : String) (st : BrowserState) (key value : String) : BrowserState :=
  if key = "signInSession" then
    { st with sessionStore := st.sessionStore.update (getKeyItem appId key) value }
  else
    { st with localStore := st.localStore.update (getKeyItem appId key) value }

/-- `BrowserStorage.removeItem`: `signInSession` deletes from sessionStorage;
every other key deletes from localStorage. -/
def removeItem (appId : String) (st : BrowserState) (key : String) : BrowserState :=
  if key = "signInSession" then
    { st with sessionStore := st.sessionStore.erase (getKeyItem appId key) }
  else
    { st with localStore := st.localStore.erase (getKeyItem appId key) }

end BrowserStorage

/-- An abstract call against the `Storage` interface, used to describe the
call sequences ("traces") a store has been subjected to. -/
inductive StoreOp where
  | set (key value : String)
  | remove (key : String)

/-- Whether a store operation writes the given key. -/
def StoreOp.writes : StoreOp → String → Bool
  | .set k _, key => k == key
  | .remove _, _ => false

/-- Run a trace of store operations against a `SecureStorage` instance. -/
def SecureStorage.run (id : String) : List StoreOp → SecureState → SecureState
  | [], st => st
  | .set k v :: ops, st => SecureStorage.run id ops (SecureStorage.setItem id st k v)
  | .remove k :: ops, st => SecureStorage.run id ops (SecureStorage.removeItem id st k)

/-- Run a trace of store operations against a `BrowserStorage` instance. -/
def BrowserStorage.run (appId : String) : List StoreOp → BrowserState → BrowserState
  | [], st => st
  | .set k v :: ops, st => BrowserStorage.run appId ops (BrowserStorage.setItem appId st k v)
  | .remove k :: ops, st => BrowserStorage.run appId ops (BrowserStorage.removeItem appId st k)

/-- The closed error-code set of `errors.ts` (`SalesforceAuthErrorCodes`). -/
inductive ErrorCode where
  | auth_session_failed
  | invalid_state
  | not_authenticated
  | token_exchange_failed
  | userinfo_request_failed
deriving DecidableEq, Repr

/-- Client configuration (`SalesforceConfig`), with the optional fields made
explicit. -/
structure SalesforceConfig where
  clientId : String
  clientSecret : Option String
  redirectUri : Option String
  sandbox : Bool
deriving DecidableEq, Repr

/-- The possible result types of `WebBrowser.openAuthSessionAsync`. -/
inductive WebBrowserResultType where
  | success
  | cancel
  | dismiss
  | opened
  | locked
deriving DecidableEq, Repr

/-- Outcome of the external browser redirect step.  The redirect URL is
modelled by its decoded query parameters, in order (the platform `URL` /
`URLSearchParams` classes are external; `searchParams.get` returns the first
occurrence of a name, or `null`). -/
structure BrowserResult where
  resultType : WebBrowserResultType
  query : List (String × String)
deriving DecidableEq, Repr

/-- `URLSearchParams.get`: first value bound to the name, else `null`. -/
def getParam (query : List (String × String)) (name : String) : Option String :=
  (query.find? (fun p => p.1 == name)).map (fun p => p.2)

/-- The token endpoint's HTTP response as consumed by
`exchangeCodeForToken`: the `response.ok` flag and the JSON fields read from
the body (`access_token` required per the provider contract,
`refresh_token` optional). -/
structure TokenResponse where
  ok : Bool
  access_token : String
  refresh_token : Option String
deriving DecidableEq, Repr

/-- The userinfo payload (`UserInfo` in `client.ts`). -/
structure UserInfo where
  name : String
  email : String
  picture : String
  preferred_username : String
  profile : String
deriving DecidableEq, Repr

/-- The userinfo endpoint's HTTP response as consumed by `getUserInfo`. -/
structure UserInfoResponse where
  ok : Bool
  body : UserInfo
deriving DecidableEq, Repr

/-- A network request issued by the client, with the fields the code puts in
it. -/
inductive NetCall where
  | tokenPost (clientId code codeVerifier redirectUri : String)
      (clientSecret : Option String)
  | revokePost (token clientId : String) (clientSecret : Option String)
  | userinfoGet (authorization : String)
deriving DecidableEq, Repr

/-- The `...(this.config.clientSecret && { client_secret })` spread: the
secret is included only when truthy. -/
def sentSecret (cfg : SalesforceConfig) : Option String :=
  if tsTruthy cfg.clientSecret then cfg.clientSecret else none

/-- The storage capability the client programs against (`this.storage`),
instantiated with `SecureStorage` off the web and `BrowserStorage` on it. -/
structure StorageOps (σ : Type) where
  getItem : σ → String → Option String
  setItem : σ → String → String → σ
  removeItem : σ → String → σ

/-- The `SecureStorage` instance used by the client on non-web platforms
(constructed with id `salesforce.${clientId}`). -/
def secureOps (id : String) : StorageOps SecureState :=
  ⟨SecureStorage.getItem id, SecureStorage.setItem id, SecureStorage.removeItem id⟩

/-- The `BrowserStorage` instance used by the client on the web
(constructed with the client id). -/
def browserOps (appId : String) : StorageOps BrowserState :=
  ⟨BrowserStorage.getItem appId, BrowserStorage.setItem appId, BrowserStorage.removeItem appId⟩

/-- Client-side state: the token store plus the position of the entropy
stream from which `signIn` draws its code verifier and state nonce. -/
structure ClientState (σ : Type) where
  store : σ
  rng : Nat

/-- The default redirect URI (`makeRedirectUri({ scheme: "myapp" })`,
external). -/
def defaultRedirectUri : String := "myapp://"

/-- The effective redirect URI: `config.redirectUri ?? makeRedirectUri(...)`. -/
def effectiveRedirectUri (cfg : SalesforceConfig) : String :=
  cfg.redirectUri.getD defaultRedirectUri

/-- `SalesforceAuthClient.exchangeCodeForToken`: POST to the token endpoint
(always exactly one request, no retry); a non-`ok` response throws
`token_exchange_failed`; otherwise `access_token` is stored under
`accessToken` unconditionally and `refresh_token` under `refreshToken` only
when truthy. -/
def exchangeCodeForToken {σ : Type} (S : StorageOps σ) (cfg : SalesforceConfig)
    (tok : TokenResponse) (code codeVerifier redirectUri : String) (store : σ) :
    Except ErrorCode Unit × σ × List NetCall :=
  let calls := [NetCall.tokenPost cfg.clientId code codeVerifier redirectUri (sentSecret cfg)]
  if tok.ok = false then
    (Except.error ErrorCode.token_exchange_failed, store, calls)
  else
    let store1 := S.setItem store "accessToken" tok.access_token
    let store2 :=
      if tsTruthy tok.refresh_token then
        S.setItem store1 "refreshToken" (tok.refresh_token.getD "")
      else store1
    (Except.ok (), store2, calls)

/-- `SalesforceAuthClient.signIn`: draw the code verifier and the state
nonce from the entropy stream, run the external browser redirect, require a
`success` result, then require a truthy `code` query parameter and a
returned `state` strictly equal to the generated nonce, and finally perform
the token exchange.  The authorization URL itself (including the derived
code challenge) is only handed to the external browser and is not consulted
by any later step, so it is not materialised here. -/
def signIn {σ : Type} (S : StorageOps σ) (cfg : SalesforceConfig)
    (browser : BrowserResult) (tok : TokenResponse) (cs : ClientState σ) :
    Except ErrorCode Unit × ClientState σ × List NetCall :=
  let codeVerifier := generateRandomString cs.rng
  let state := generateRandomString (cs.rng + 1)
  let cs1 : ClientState σ := ⟨cs.store, cs.rng + 2⟩
  let redirectUri := effectiveRedirectUri cfg
  if browser.resultType ≠ WebBrowserResultType.success then
    (Except.error ErrorCode.auth_session_failed, cs1, [])
  else
    let code := getParam browser.query "code"
    let returnedState := getParam browser.query "state"
    if tsTruthy code = false ∨ returnedState ≠ some state then
      (Except.error ErrorCode.invalid_state, cs1, [])
    else
      let r := exchangeCodeForToken S cfg tok (code.getD "") codeVerifier redirectUri cs1.store
      (r.1, ⟨r.2.1, cs1.rng⟩, r.2.2)

/-- `SalesforceAuthClient.signOut`: read the stored access token; when
truthy, POST it to the revocation endpoint (the HTTP result is not
inspected) and then remove the `accessToken` and `refreshToken` entries;
otherwise do nothing. -/
def signOut {σ : Type} (S : StorageOps σ) (cfg : SalesforceConfig)
    (cs : ClientState σ) : ClientState σ × List NetCall :=
  let token := S.getItem cs.store "accessToken"
  if tsTruthy token then
    let calls := [NetCall.revokePost (token.getD "") cfg.clientId (sentSecret cfg)]
    let store1 := S.removeItem cs.store "accessToken"
    let store2 := S.removeItem store1 "refreshToken"
    (⟨store2, cs.rng⟩, calls)
  else
    (cs, [])

/-- `SalesforceAuthClient.getUserInfo`: a falsy stored access token throws
`not_authenticated` before any request; otherwise a GET with a Bearer
authorization header is issued, a non-`ok` response throws
`userinfo_request_failed`, and an `ok` response yields the body. -/
def getUserInfo {σ : Type} (S : StorageOps σ) (resp : UserInfoResponse)
    (cs : ClientState σ) : Except ErrorCode UserInfo × List NetCall :=
  let token := S.getItem cs.store "accessToken"
  if tsTruthy token = false then
    (Except.error ErrorCode.not_authenticated, [])
  else
    let calls := [NetCall.userinfoGet ("Bearer " ++ token.getD "")]
    if resp.ok = false then
      (Except.error ErrorCode.userinfo_request_failed, calls)
    else
      (Except.ok resp.body, calls)

/-- `SalesforceAuthClient.isAuthenticated`: `Boolean(getItem("accessToken"))`;
no request is issued. -/
def isAuthenticated {σ : Type} (S : StorageOps σ) (cs : ClientState σ) :
    Bool × List NetCall :=
  (tsTruthy (S.getItem cs.store "accessToken"), [])

/-- A client API call together with the external inputs (browser outcome,
HTTP responses) it consumed. -/
inductive ClientOp where
  | opSignIn (browser : BrowserResult) (tok : TokenResponse)
  | opSignOut
  | opGetUserInfo (resp : UserInfoResponse)
  | opIsAuthenticated

/-- The state transition of one client API call. -/
def stepClient {σ : Type} (S : StorageOps σ) (cfg : SalesforceConfig) :
    ClientOp → ClientState σ → ClientState σ
  | .opSignIn browser tok, cs => (signIn S cfg browser tok cs).2.1
  | .opSignOut, cs => (signOut S cfg cs).1
  | .opGetUserInfo _, cs => cs
  | .opIsAuthenticated, cs => cs

/-- Run a sequence of client API calls. -/
def runClient {σ : Type} (S : StorageOps σ) (cfg : SalesforceConfig) :
    List ClientOp → ClientState σ → ClientState σ
  | [], cs => cs
  | op :: ops, cs => runClient S cfg ops (stepClient S cfg op cs)

/-- The state of a freshly constructed client on a non-web platform: empty
stores, entropy stream at its origin. -/
def initialSecureClient : ClientState SecureState :=
  ⟨SecureState.empty, 0⟩

/-- The storage id the client constructor passes to `SecureStorage`. -/
def clientStorageId (cfg : SalesforceConfig) : String :=
  "salesforce." ++ cfg.clientId

/-! ### SHA-256 and base64, for the PKCE code challenge

`utils.ts` (the `generateCodeChallenge` implementation) is not among the
provided sources; per the specification it computes the SHA-256 digest of
the verifier and returns it base64url-encoded without padding.  SHA-256
(FIPS 180-4) and base64 (RFC 4648) are implemented below over `Nat` words
reduced modulo `2^32`. -/

/-- Reduce to a 32-bit word. -/
def w32 (n : Nat) : Nat := n % 4294967296

/-- Right-rotation of a 32-bit word by `n` bits. -/
def rotr32 (n x : Nat) : Nat :=
  w32 (x / 2 ^ n + x % 2 ^ n * 2 ^ (32 - n))

/-- SHA-256 `Ch`. -/
def shaCh (x y z : Nat) : Nat := (x &&& y) ^^^ ((x ^^^ 4294967295) &&& z)

/-- SHA-256 `Maj`. -/
def shaMaj (x y z : Nat) : Nat := (x &&& y) ^^^ (x &&& z) ^^^ (y &&& z)

/-- SHA-256 `Σ₀`. -/
def bigSigma0 (x : Nat) : Nat := rotr32 2 x ^^^ rotr32 13 x ^^^ rotr32 22 x

/-- SHA-256 `Σ₁`. -/
def bigSigma1 (x : Nat) : Nat := rotr32 6 x ^^^ rotr32 11 x ^^^ rotr32 25 x

/-- SHA-256 `σ₀`. -/
def smallSigma0 (x : Nat) : Nat := rotr32 7 x ^^^ rotr32 18 x ^^^ x / 8

/-- SHA-256 `σ₁`. -/
def smallSigma1 (x : Nat) : Nat := rotr32 17 x ^^^ rotr32 19 x ^^^ x / 1024

/-- The SHA-256 round constants. -/
def shaK : List Nat :=
  [1116352408, 1899447441, 3049323471, 3921009573, 961987163,
   1508970993, 2453635748, 2870763221, 3624381080, 310598401,
   607225278, 1426881987, 1925078388, 2162078206, 2614888103,
   3248222580, 3835390401, 4022224774, 264347078, 604807628,
   770255983, 1249150122, 1555081692, 1996064986, 2554220882,
   2821834349, 2952996808, 3210313671, 3336571891, 3584528711,
   113926993, 338241895, 666307205, 773529912, 1294757372,
   1396182291, 1695183700, 1986661051, 2177026350, 2456956037,
   2730485921, 2820302411, 3259730800, 3345764771, 3516065817,
   3600352804, 4094571909, 275423344, 430227734, 506948616,
   659060556, 883997877, 958139571, 1322822218, 1537002063,
   1747873779, 1955562222, 2024104815, 2227730452, 2361852424,
   2428436474, 2756734187, 3204031479, 3329325298]

/-- The SHA-256 initial hash value. -/
def shaH0 : List Nat :=
  [1779033703, 3144134277, 1013904242, 2773480762,
   1359893119, 2600822924, 528734635, 1541459225]

/-- Big-endian 32-bit word assembled from four bytes of a block. -/
def wordAt (block : List Nat) (t : Nat) : Nat :=
  block.getD (4 * t) 0 * 16777216 + block.getD (4 * t + 1) 0 * 65536 +
    block.getD (4 * t + 2) 0 * 256 + block.getD (4 * t + 3) 0

/-- The 64-entry SHA-256 message schedule of a block. -/
def buildW (block : List Nat) : Array Nat :=
  (List.range 64).foldl
    (fun w t =>
      if t < 16 then w.push (wordAt block t)
      else
        w.push (w32 (smallSigma1 (w.getD (t - 2) 0) + w.getD (t - 7) 0 +
          smallSigma0 (w.getD (t - 15) 0) + w.getD (t - 16) 0)))
    #[]

/-- One SHA-256 compression round. -/
def shaRound (w : Array Nat) (s : List Nat) (t : Nat) : List Nat :=
  let a := s.getD 0 0
  let b := s.getD 1 0
  let c := s.getD 2 0
  let d := s.getD 3 0
  let e := s.getD 4 0
  let f := s.getD 5 0
  let g := s.getD 6 0
  let h := s.getD 7 0
  let t1 := w32 (h + bigSigma1 e + shaCh e f g + shaK.getD t 0 + w.getD t 0)
  let t2 := w32 (bigSigma0 a + shaMaj a b c)
  [w32 (t1 + t2), a, b, c, w32 (d + t1), e, f, g]

/-- SHA-256 compression of one 64-byte block into the running hash. -/
def shaCompress (hs : List Nat) (block : List Nat) : List Nat :=
  let w := buildW block
  let final := (List.range 64).foldl (shaRound w) hs
  List.zipWith (fun x y => w32 (x + y)) hs final

/-- SHA-256 message padding: `0x80`, zeros, and the 64-bit big-endian bit
length, to a multiple of 64 bytes. -/
def padBytes (msg : List Nat) : List Nat :=
  let L := msg.length * 8
  msg ++ 0x80 :: List.replicate ((64 - (msg.length + 9) % 64) % 64) 0 ++
    [L / 2 ^ 56 % 256, L / 2 ^ 48 % 256, L / 2 ^ 40 % 256, L / 2 ^ 32 % 256,
     L / 2 ^ 24 % 256, L / 2 ^ 16 % 256, L / 2 ^ 8 % 256, L % 256]

/-- The 64-byte blocks of a padded message. -/
def blocks64 (l : List Nat) : List (List Nat) :=
  (List.range (l.length / 64)).map (fun i => (l.drop (64 * i)).take 64)

/-- Big-endian byte decomposition of a 32-bit word. -/
def wordBytesBE (x : Nat) : List Nat :=
  [x / 16777216 % 256, x / 65536 % 256, x / 256 % 256, x % 256]

/-- SHA-256 of a byte sequence, as 32 bytes. -/
def sha256 (msg : List Nat) : List Nat :=
  ((blocks64 (padBytes msg)).foldl shaCompress shaH0).flatMap wordBytesBE

/-- UTF-8 encoding of one character.  The high bits of each leading byte
are reduced explicitly; on valid code points the reductions are the
identity. -/
def utf8EncodeCharBytes (c : Char) : List Nat :=
  let n := c.toNat
  if n < 128 then [n]
  else if n < 2048 then [192 + n / 64 % 32, 128 + n % 64]
  else if n < 65536 then [224 + n / 4096 % 16, 128 + n / 64 % 64, 128 + n % 64]
  else [240 + n / 262144 % 8, 128 + n / 4096 % 64, 128 + n / 64 % 64, 128 + n % 64]

/-- The UTF-8 bytes of a string. -/
def utf8Bytes (s : String) : List Nat :=
  s.data.flatMap utf8EncodeCharBytes

/-- The six-bit groups of a byte sequence (RFC 4648 §4): three bytes yield
four groups; a final byte yields two and a final pair three. -/
def base64Sextets : List Nat → List Nat
  | b1 :: b2 :: b3 :: rest =>
      b1 / 4 :: (b1 % 4 * 16 + b2 / 16) :: (b2 % 16 * 4 + b3 / 64) :: b3 % 64 ::
        base64Sextets rest
  | [b1, b2] => [b1 / 4, b1 % 4 * 16 + b2 / 16, b2 % 16 * 4]
  | [b1] => [b1 / 4, b1 % 4 * 16]
  | [] => []

/-- The standard base64 alphabet. -/
def stdAlphabet : List Char :=
  "ABCDEFGHIJKLMNOPQRSTUVWXYZabcdefghijklmnopqrstuvwxyz0123456789+/".data

/-- The base64url alphabet. -/
def urlAlphabet : List Char :=
  "ABCDEFGHIJKLMNOPQRSTUVWXYZabcdefghijklmnopqrstuvwxyz0123456789-_".data

/-- Standard base64 encoding with `=` padding. -/
def base64Standard (bytes : List Nat) : String :=
  String.mk ((base64Sextets bytes).map (fun i => stdAlphabet.getD i 'A') ++
    List.replicate ((3 - bytes.length % 3) % 3) '=')

/-- base64url encoding without padding. -/
def base64UrlNoPad (bytes : List Nat) : String :=
  String.mk ((base64Sextets bytes).map (fun i => urlAlphabet.getD i 'A'))

/-- The URL-safe post-processing applied per character to a standard base64
encoding: drop `=` padding, replace `+` with `-` and `/` with `_`. -/
def urlSafeOfStd (c : Char) : Option Char :=
  if c = '=' then none
  else if c = '+' then some '-'
  else if c = '/' then some '_'
  else some c

/-- Modelled from the spec: `generateCodeChallenge` of `utils.ts`, which is
not among the provided sources.  Per spec §4.1 it computes the SHA-256
digest of the verifier and returns it base64url-encoded with no padding;
the base64url step is modelled the way the package's `js-base64` dependency
produces URL-safe output, namely standard base64 post-processed with the
URL-safe character substitution and padding removal. -/
def generateCodeChallenge (verifier : String) : String :=
  String.mk ((base64Standard (sha256 (utf8Bytes verifier))).data.filterMap urlSafeOfStd)

/-- The claim's wording: the SHA-256 digest of the verifier, base64url
encoded with no padding. -/
def codeChallengeSpec (verifier : String) : String :=
  base64UrlNoPad (sha256 (utf8Bytes verifier))

/-- The legacy backward-compatibility session key is absent: this library's
own store operations never write it. -/
def legacyClean (appId : String) (st : BrowserState) : Prop :=
  st.sessionStore (BrowserStorage.getKeyLegacy appId) = none

/-- A client on a non-web platform run from its freshly constructed state
through a sequence of API calls. -/
def secureClientRun (cfg : SalesforceConfig) (ops : List ClientOp) : ClientState SecureState :=
  runClient (secureOps (clientStorageId cfg)) cfg ops initialSecureClient

/-- A concrete configuration (the spec's happy-path scenario). -/
def cfgC1 : SalesforceConfig := ⟨"C1", none, none, false⟩

/-- A concrete sign-in call whose browser step succeeds, echoes the state
nonce the client generates on a fresh instance, and whose token response is
accepted with an empty-string `access_token` and no `refresh_token`. -/
def emptyTokenSignIn : ClientOp :=
  ClientOp.opSignIn
    ⟨WebBrowserResultType.success, [("code", "c"), ("state", "rr")]⟩
    ⟨true, "", none⟩

end SfAuth

namespace SfAuth

/-! ### Basic lemmas about the external-store and crypto models -/

theorem KVMap.update_apply_self (m : KVMap) (k v : String) :
    m.update k v k = some v := by
  simp [KVMap.update]

theorem KVMap.update_apply_ne (m : KVMap) (k v q : String) (h : q ≠ k) :
    m.update k v q = m q := by
  simp [KVMap.update, h]

theorem KVMap.erase_apply_self (m : KVMap) (k : String) :
    m.erase k k = none := by
  simp [KVMap.erase]

theorem KVMap.erase_apply_ne (m : KVMap) (k q : String) (h : q ≠ k) :
    m.erase k q = m q := by
  simp [KVMap.erase, h]

theorem KVMap.erase_erase (m : KVMap) (k : String) :
    (m.erase k).erase k = m.erase k := by
  funext q
  by_cases h : q = k <;> simp [KVMap.erase, h]

theorem KVMap.empty_apply (k : String) : KVMap.empty k = none := rfl

theorem string_data_mk (l : List Char) : (String.mk l).data = l := rfl

theorem KVMap.erase_apply_none (m : KVMap) (k q : String) (h : m q = none) :
    m.erase k q = none := by
  unfold KVMap.erase
  split
  · rfl
  · exact h

theorem string_eq_of_data_eq (a b : String) (h : a.data = b.data) : a = b := by
  cases a
  cases b
  exact congrArg String.mk h

theorem string_data_append (a b : String) : (a ++ b).data = a.data ++ b.data := by
  cases a
  cases b
  rfl

theorem string_append_cancel_left (a b c : String) (h : a ++ b = a ++ c) : b = c := by
  have hd : a.data ++ b.data = a.data ++ c.data := by
    rw [← string_data_append, ← string_data_append, h]
  exact string_eq_of_data_eq _ _ (List.append_cancel_left hd)

theorem generateRandomString_ne_empty (rng : Nat) : generateRandomString rng ≠ "" := by
  intro h
  have : (generateRandomString rng).data = ("" : String).data := by rw [h]
  simp [generateRandomString, string_data_mk] at this

theorem aes_roundtrip (value key : String) :
    aesDecrypt (aesEncrypt value key) key = value := by
  apply string_eq_of_data_eq
  simp [aesDecrypt, aesEncrypt, string_data_mk]

theorem aesEncrypt_ne_empty (value key : String) (h : key ≠ "") :
    aesEncrypt value key ≠ "" := by
  intro he
  apply h
  have : (aesEncrypt value key).data = ("" : String).data := by rw [he]
  simp only [aesEncrypt, string_data_mk] at this
  have hk : key.data = [] := by
    rcases List.append_eq_nil.mp this with ⟨h1, _⟩
    exact h1
  exact string_eq_of_data_eq _ _ hk

/-! ### SecureStorage lemmas -/

theorem getStorageKey_inj (id k1 k2 : String)
    (h : SecureStorage.getStorageKey id k1 = SecureStorage.getStorageKey id k2) :
    k1 = k2 :=
  string_append_cancel_left _ _ _ h

theorem getStorageKey_ne (id k1 k2 : String) (h : k1 ≠ k2) :
    SecureStorage.getStorageKey id k1 ≠ SecureStorage.getStorageKey id k2 :=
  fun he => h (getStorageKey_inj id k1 k2 he)

theorem secure_get_set_self (id : String) (st : SecureState) (k v : String) :
    SecureStorage.getItem id (SecureStorage.setItem id st k v) k = some v := by
  unfold SecureStorage.getItem SecureStorage.setItem
  simp only [KVMap.update_apply_self]
  rw [if_neg (aesEncrypt_ne_empty v _ (generateRandomString_ne_empty st.rng))]
  unfold SecureStorage.decrypt
  simp only [KVMap.update_apply_self]
  rw [if_neg (generateRandomString_ne_empty st.rng)]
  rw [aes_roundtrip]

theorem secure_get_set_ne (id : String) (st : SecureState) (k v q : String)
    (h : q ≠ k) :
    SecureStorage.getItem id (SecureStorage.setItem id st k v) q =
      SecureStorage.getItem id st q := by
  have hk := getStorageKey_ne id q k h
  unfold SecureStorage.getItem SecureStorage.setItem
  simp only [KVMap.update_apply_ne _ _ _ _ hk]
  unfold SecureStorage.decrypt
  simp only [KVMap.update_apply_ne _ _ _ _ hk]

theorem secure_get_remove_self (id : String) (st : SecureState) (k : String) :
    SecureStorage.getItem id (SecureStorage.removeItem id st k) k = none := by
  unfold SecureStorage.getItem SecureStorage.removeItem
  simp only [KVMap.erase_apply_self]

theorem secure_get_remove_ne (id : String) (st : SecureState) (k q : String)
    (h : q ≠ k) :
    SecureStorage.getItem id (SecureStorage.removeItem id st k) q =
      SecureStorage.getItem id st q := by
  have hk := getStorageKey_ne id q k h
  unfold SecureStorage.getItem SecureStorage.removeItem
  simp only [KVMap.erase_apply_ne _ _ _ hk]
  unfold SecureStorage.decrypt
  simp only [KVMap.erase_apply_ne _ _ _ hk]

theorem secure_remove_idem (id : String) (st : SecureState) (k : String) :
    SecureStorage.removeItem id (SecureStorage.removeItem id st k) k =
      SecureStorage.removeItem id st k := by
  unfold SecureStorage.removeItem
  simp only [KVMap.erase_erase]

theorem secure_get_empty (id k : String) :
    SecureStorage.getItem id SecureState.empty k = none := rfl

theorem secure_run_get_none (id : String) (ops : List StoreOp) (k : String)
    (st : SecureState) (hst : SecureStorage.getItem id st k = none)
    (h : ∀ op ∈ ops, op.writes k = false) :
    SecureStorage.getItem id (SecureStorage.run id ops st) k = none := by
  induction ops generalizing st with
  | nil => exact hst
  | cons op ops ih =>
      have hop := h op (List.mem_cons_self op ops)
      have hrest : ∀ o ∈ ops, o.writes k = false :=
        fun o ho => h o (List.mem_cons_of_mem op ho)
      cases op with
      | set k' v =>
          have hne : k' ≠ k := by
            simpa [StoreOp.writes] using hop
          refine ih (SecureStorage.setItem id st k' v) ?_ hrest
          rw [secure_get_set_ne id st k' v k (fun he => hne he.symm)]
          exact hst
      | remove k' =>
          refine ih (SecureStorage.removeItem id st k') ?_ hrest
          by_cases hk : k = k'
          · subst hk
            exact secure_get_remove_self id st k
          · rw [secure_get_remove_ne id st k' k hk]
            exact hst

/-! ### BrowserStorage lemmas -/

theorem getKeyItem_inj (appId k1 k2 : String)
    (h : BrowserStorage.getKeyItem appId k1 = BrowserStorage.getKeyItem appId k2) :
    k1 = k2 :=
  string_append_cancel_left _ _ _ h

theorem getKeyItem_ne_legacy (appId k : String) :
    BrowserStorage.getKeyItem appId k ≠ BrowserStorage.getKeyLegacy appId := by
  intro h
  have hd := congrArg String.data h
  simp only [BrowserStorage.getKeyItem, BrowserStorage.getKeyLegacy,
    string_data_append] at hd
  have hl := congrArg List.length hd
  simp only [List.length_append, List.length_cons, List.length_nil] at hl
  omega

theorem legacyClean_empty (appId : String) : legacyClean appId BrowserState.empty := rfl

theorem legacyClean_set (appId : String) (st : BrowserState) (k v : String)
    (h : legacyClean appId st) :
    legacyClean appId (BrowserStorage.setItem appId st k v) := by
  unfold legacyClean BrowserStorage.setItem at *
  by_cases hk : k = "signInSession"
  · simp only [hk, reduceIte]
    rw [KVMap.update_apply_ne _ _ _ _ (getKeyItem_ne_legacy appId _).symm]
    exact h
  · simp only [hk, reduceIte]
    exact h

theorem legacyClean_remove (appId : String) (st : BrowserState) (k : String)
    (h : legacyClean appId st) :
    legacyClean appId (BrowserStorage.removeItem appId st k) := by
  unfold legacyClean BrowserStorage.removeItem at *
  by_cases hk : k = "signInSession"
  · simp only [hk, reduceIte]
    exact KVMap.erase_apply_none _ _ _ h
  · simp only [hk, reduceIte]
    exact h

theorem browser_get_set_self (appId : String) (st : BrowserState) (k v : String) :
    BrowserStorage.getItem appId (BrowserStorage.setItem appId st k v) k = some v := by
  unfold BrowserStorage.getItem BrowserStorage.setItem
  by_cases hk : k = "signInSession" <;>
    simp [hk, KVMap.update_apply_self]

theorem browser_get_set_ne (appId : String) (st : BrowserState) (k v q : String)
    (h : q ≠ k) :
    BrowserStorage.getItem appId (BrowserStorage.setItem appId st k v) q =
      BrowserStorage.getItem appId st q := by
  have hkey : BrowserStorage.getKeyItem appId q ≠ BrowserStorage.getKeyItem appId k :=
    fun he => h (getKeyItem_inj appId q k he)
  unfold BrowserStorage.getItem BrowserStorage.setItem
  by_cases hq : q = "signInSession" <;> by_cases hk : k = "signInSession"
  · exact absurd (hq.trans hk.symm) h
  · simp only [hq, hk, reduceIte]
  · simp only [hq, hk, reduceIte]
  · simp only [hq, hk, reduceIte]
    rw [KVMap.update_apply_ne _ _ _ _ hkey]

theorem browser_get_remove_self (appId : String) (st : BrowserState) (k : String)
    (hclean : legacyClean appId st) :
    BrowserStorage.getItem appId (BrowserStorage.removeItem appId st k) k = none := by
  unfold BrowserStorage.getItem BrowserStorage.removeItem
  by_cases hk : k = "signInSession"
  · simp only [hk, reduceIte, KVMap.erase_apply_self]
    exact KVMap.erase_apply_none _ _ _ hclean
  · simp only [hk, reduceIte, KVMap.erase_apply_self]

theorem browser_get_remove_ne (appId : String) (st : BrowserState) (k q : String)
    (h : q ≠ k) :
    BrowserStorage.getItem appId (BrowserStorage.removeItem appId st k) q =
      BrowserStorage.getItem appId st q := by
  have hkey : BrowserStorage.getKeyItem appId q ≠ BrowserStorage.getKeyItem appId k :=
    fun he => h (getKeyItem_inj appId q k he)
  unfold BrowserStorage.getItem BrowserStorage.removeItem
  by_cases hq : q = "signInSession" <;> by_cases hk : k = "signInSession"
  · exact absurd (hq.trans hk.symm) h
  · simp only [hq, hk, reduceIte]
  · simp only [hq, hk, reduceIte]
  · simp only [hq, hk, reduceIte]
    rw [KVMap.erase_apply_ne _ _ _ hkey]

theorem browser_remove_idem (appId : String) (st : BrowserState) (k : String) :
    BrowserStorage.removeItem appId (BrowserStorage.removeItem appId st k) k =
      BrowserStorage.removeItem appId st k := by
  unfold BrowserStorage.removeItem
  by_cases hk : k = "signInSession" <;> simp [hk, KVMap.erase_erase]

theorem browser_run_legacyClean (appId : String) (ops : List StoreOp)
    (st : BrowserState) (h : legacyClean appId st) :
    legacyClean appId (BrowserStorage.run appId ops st) := by
  induction ops generalizing st with
  | nil => exact h
  | cons op ops ih =>
      cases op with
      | set k v => exact ih _ (legacyClean_set appId st k v h)
      | remove k => exact ih _ (legacyClean_remove appId st k h)

theorem browser_get_empty (appId k : String) :
    BrowserStorage.getItem appId BrowserState.empty k = none := by
  unfold BrowserStorage.getItem
  by_cases hk : k = "signInSession" <;> simp [hk, KVMap.empty, BrowserState.empty]

theorem browser_get_none_legacy_none (appId : String) (st : BrowserState)
    (hst : BrowserStorage.getItem appId st "signInSession" = none) :
    st.sessionStore (BrowserStorage.getKeyLegacy appId) = none := by
  unfold BrowserStorage.getItem at hst
  simp only [reduceIte] at hst
  cases hcase : st.sessionStore (BrowserStorage.getKeyItem appId "signInSession") with
  | none => rw [hcase] at hst; exact hst
  | some v => rw [hcase] at hst; exact absurd hst (by simp)

theorem browser_get_remove_self_of_none (appId : String) (st : BrowserState)
    (k : String) (hst : BrowserStorage.getItem appId st k = none) :
    BrowserStorage.getItem appId (BrowserStorage.removeItem appId st k) k = none := by
  by_cases hk : k = "signInSession"
  · subst hk
    have hleg := browser_get_none_legacy_none appId st hst
    unfold BrowserStorage.getItem BrowserStorage.removeItem
    simp only [reduceIte, KVMap.erase_apply_self]
    exact KVMap.erase_apply_none _ _ _ hleg
  · unfold BrowserStorage.getItem BrowserStorage.removeItem
    simp only [hk, reduceIte, KVMap.erase_apply_self]

theorem browser_run_get_none (appId : String) (ops : List StoreOp) (k : String)
    (st : BrowserState) (hst : BrowserStorage.getItem appId st k = none)
    (h : ∀ op ∈ ops, op.writes k = false) :
    BrowserStorage.getItem appId (BrowserStorage.run appId ops st) k = none := by
  induction ops generalizing st with
  | nil => exact hst
  | cons op ops ih =>
      have hop := h op (List.mem_cons_self op ops)
      have hrest : ∀ o ∈ ops, o.writes k = false :=
        fun o ho => h o (List.mem_cons_of_mem op ho)
      cases op with
      | set k' v =>
          have hne : k' ≠ k := by
            simpa [StoreOp.writes] using hop
          refine ih (BrowserStorage.setItem appId st k' v) ?_ hrest
          rw [browser_get_set_ne appId st k' v k (fun he => hne he.symm)]
          exact hst
      | remove k' =>
          refine ih (BrowserStorage.removeItem appId st k') ?_ hrest
          by_cases hk : k = k'
          · subst hk
            exact browser_get_remove_self_of_none appId st k hst
          · rw [browser_get_remove_ne appId st k' k hk]
            exact hst

/-- C2: For both Token Store variants (SecureStorage and BrowserStorage),
for all keys `k` and string values `s`: `setItem(k,s)` followed by
`getItem(k)` with no intervening mutation returns `s`; `getItem(k)` on a
key never written (over any call sequence from the empty store), or written
and then removed via `removeItem(k)`, returns `null`; and `removeItem(k)`
is idempotent (a second `removeItem(k)` leaves the store in the same state
and does not fail). -/
theorem token_store_contract :
    (∀ id st k v,
      SecureStorage.getItem id (SecureStorage.setItem id st k v) k = some v) ∧
    (∀ id ops k, (∀ op ∈ ops, StoreOp.writes op k = false) →
      SecureStorage.getItem id (SecureStorage.run id ops SecureState.empty) k = none) ∧
    (∀ id st k,
      SecureStorage.getItem id (SecureStorage.removeItem id st k) k = none) ∧
    (∀ id st k,
      SecureStorage.removeItem id (SecureStorage.removeItem id st k) k =
        SecureStorage.removeItem id st k) ∧
    (∀ appId st k v,
      BrowserStorage.getItem appId (BrowserStorage.setItem appId st k v) k = some v) ∧
    (∀ appId ops k, (∀ op ∈ ops, StoreOp.writes op k = false) →
      BrowserStorage.getItem appId (BrowserStorage.run appId ops BrowserState.empty) k = none) ∧
    (∀ appId ops k,
      BrowserStorage.getItem appId
        (BrowserStorage.removeItem appId (BrowserStorage.run appId ops BrowserState.empty) k) k =
          none) ∧
    (∀ appId st k,
      BrowserStorage.removeItem appId (BrowserStorage.removeItem appId st k) k =
        BrowserStorage.removeItem appId st k) := by
  refine ⟨secure_get_set_self, ?_, secure_get_remove_self, secure_remove_idem,
    browser_get_set_self, ?_, ?_, browser_remove_idem⟩
  · intro id ops k h
    exact secure_run_get_none id ops k SecureState.empty (secure_get_empty id k) h
  · intro appId ops k h
    exact browser_run_get_none appId ops k BrowserState.empty (browser_get_empty appId k) h
  · intro appId ops k
    exact browser_get_remove_self appId _ k
      (browser_run_legacyClean appId ops BrowserState.empty (legacyClean_empty appId))

/-- Witness for C2: the never-written clauses applied to the concrete trace
`set "a" "x"` and the unwritten key `"b"`, for both variants. -/
theorem token_store_contract_witness :
    SecureStorage.getItem "i"
      (SecureStorage.run "i" [StoreOp.set "a" "x"] SecureState.empty) "b" = none ∧
    BrowserStorage.getItem "app"
      (BrowserStorage.run "app" [StoreOp.set "a" "x"] BrowserState.empty) "b" = none :=
  ⟨token_store_contract.2.1 "i" [StoreOp.set "a" "x"] "b" (by decide),
   token_store_contract.2.2.2.2.2.1 "app" [StoreOp.set "a" "x"] "b" (by decide)⟩

/-- C3: For the SecureStorage variant, whenever the encryption key for a
key `k` is absent from the secure element, `getItem(k)` returns `null`
(no error, no stale plaintext) — even when the ciphertext is still present
in the general-purpose store. -/
theorem secure_key_loss (id : String) (st : SecureState) (k : String)
    (h : st.secureStore (SecureStorage.getStorageKey id k) = none) :
    SecureStorage.getItem id st k = none := by
  unfold SecureStorage.getItem SecureStorage.decrypt
  cases hthe : st.asyncStore (SecureStorage.getStorageKey id k) with
  | none => simp [hthe]
  | some enc =>
      simp only [hthe, h]
      split
      · rfl
      · rfl

/-- Witness for C3: a state whose general-purpose store still holds a
ciphertext for the key while the secure element does not hold its
encryption key. -/
theorem secure_key_loss_witness :
    (SecureState.mk
        (KVMap.empty.update (SecureStorage.getStorageKey "i" "k") "CIPHER")
        KVMap.empty 0).asyncStore (SecureStorage.getStorageKey "i" "k") = some "CIPHER" ∧
    (SecureState.mk
        (KVMap.empty.update (SecureStorage.getStorageKey "i" "k") "CIPHER")
        KVMap.empty 0).secureStore (SecureStorage.getStorageKey "i" "k") = none ∧
    SecureStorage.getItem "i"
      (SecureState.mk
        (KVMap.empty.update (SecureStorage.getStorageKey "i" "k") "CIPHER")
        KVMap.empty 0) "k" = none :=
  ⟨by simp [KVMap.update_apply_self], rfl,
   secure_key_loss "i" _ "k" rfl⟩

/-! ### Client lemmas -/

theorem exchange_calls {σ : Type} (S : StorageOps σ) (cfg : SalesforceConfig)
    (tok : TokenResponse) (code ver uri : String) (st : σ) :
    (exchangeCodeForToken S cfg tok code ver uri st).2.2 =
      [NetCall.tokenPost cfg.clientId code ver uri (sentSecret cfg)] := by
  unfold exchangeCodeForToken
  split
  · rfl
  · rfl

theorem exchange_result_cases {σ : Type} (S : StorageOps σ) (cfg : SalesforceConfig)
    (tok : TokenResponse) (code ver uri : String) (st : σ) :
    (exchangeCodeForToken S cfg tok code ver uri st).1 =
        Except.error ErrorCode.token_exchange_failed ∨
      (exchangeCodeForToken S cfg tok code ver uri st).1 = Except.ok () := by
  unfold exchangeCodeForToken
  split
  · exact Or.inl rfl
  · exact Or.inr rfl

theorem exchange_fail_frame {σ : Type} (S : StorageOps σ) (cfg : SalesforceConfig)
    (tok : TokenResponse) (code ver uri : String) (st : σ) (hok : tok.ok = false) :
    (exchangeCodeForToken S cfg tok code ver uri st).1 =
        Except.error ErrorCode.token_exchange_failed ∧
      (exchangeCodeForToken S cfg tok code ver uri st).2.1 = st := by
  unfold exchangeCodeForToken
  rw [if_pos hok]
  exact ⟨rfl, rfl⟩

theorem exchange_ok_store {σ : Type} (S : StorageOps σ) (cfg : SalesforceConfig)
    (tok : TokenResponse) (code ver uri : String) (st : σ) (hok : tok.ok = true) :
    (exchangeCodeForToken S cfg tok code ver uri st).1 = Except.ok () ∧
      (exchangeCodeForToken S cfg tok code ver uri st).2.1 =
        (if tsTruthy tok.refresh_token then
          S.setItem (S.setItem st "accessToken" tok.access_token) "refreshToken"
            (tok.refresh_token.getD "")
        else S.setItem st "accessToken" tok.access_token) := by
  unfold exchangeCodeForToken
  rw [if_neg (by simp [hok])]
  refine ⟨rfl, ?_⟩
  split
  · rfl
  · rfl

/-- C1 (amended): for a `signIn()` call whose browser step resolves with
type `success`, the call fails with `invalid_state` exactly when the
redirect URL's query lacks a `code` parameter **or carries it with the
empty-string value**, or its `state` parameter is not
character-for-character equal to the state nonce generated at the start of
that same call; when a non-empty `code` is present and the returned state
equals the generated one, the call proceeds to the token exchange (the
single token POST is issued) without raising `invalid_state`. -/
theorem signIn_invalid_state_iff {σ : Type} (S : StorageOps σ)
    (cfg : SalesforceConfig) (browser : BrowserResult) (tok : TokenResponse)
    (cs : ClientState σ) (hb : browser.resultType = WebBrowserResultType.success) :
    ((signIn S cfg browser tok cs).1 = Except.error ErrorCode.invalid_state ↔
      (tsTruthy (getParam browser.query "code") = false ∨
        getParam browser.query "state" ≠ some (generateRandomString (cs.rng + 1)))) ∧
    ((tsTruthy (getParam browser.query "code") = true ∧
        getParam browser.query "state" = some (generateRandomString (cs.rng + 1))) →
      (signIn S cfg browser tok cs).2.2 =
        [NetCall.tokenPost cfg.clientId ((getParam browser.query "code").getD "")
          (generateRandomString cs.rng) (effectiveRedirectUri cfg) (sentSecret cfg)]) := by
  unfold signIn
  rw [if_neg (by simp [hb])]
  by_cases hcond : tsTruthy (getParam browser.query "code") = false ∨
      getParam browser.query "state" ≠ some (generateRandomString (cs.rng + 1))
  · rw [if_pos hcond]
    refine ⟨by simpa using hcond, ?_⟩
    intro hgood
    rcases hcond with hc | hs
    · rw [hgood.1] at hc
      exact absurd hc (by simp)
    · exact absurd hgood.2 hs
  · rw [if_neg hcond]
    constructor
    · simp only [iff_false, hcond]
      rcases exchange_result_cases S cfg tok
          ((getParam browser.query "code").getD "") (generateRandomString cs.rng)
          (effectiveRedirectUri cfg) cs.store with hr | hr
      · intro hcontra
        rw [hr] at hcontra
        exact ErrorCode.noConfusion (Except.error.inj hcontra)
      · intro hcontra
        rw [hr] at hcontra
        exact Except.noConfusion hcontra
    · intro _
      exact exchange_calls S cfg tok _ _ _ _

/-- Counterexample to C1 as stated: the concrete redirect query
`?code=&state=rr` *does* carry a `code` parameter (with the empty-string
value) and its state equals the nonce generated for the call, yet `signIn`
fails with `invalid_state` instead of proceeding to the token exchange. -/
theorem signIn_invalid_state_claim_counterexample :
    (signIn (secureOps (clientStorageId cfgC1)) cfgC1
        ⟨WebBrowserResultType.success, [("code", ""), ("state", "rr")]⟩
        ⟨true, "AT", none⟩ initialSecureClient).1 =
      Except.error ErrorCode.invalid_state ∧
    getParam [("code", ""), ("state", "rr")] "code" = some "" ∧
    getParam [("code", ""), ("state", "rr")] "state" =
      some (generateRandomString (initialSecureClient.rng + 1)) ∧
    (signIn (secureOps (clientStorageId cfgC1)) cfgC1
        ⟨WebBrowserResultType.success, [("code", ""), ("state", "rr")]⟩
        ⟨true, "AT", none⟩ initialSecureClient).2.2 = [] := by
  refine ⟨rfl, rfl, ?_, rfl⟩
  rfl

/-- Witness for C1 (amended): the happy-path redirect query
`?code=ABC123&state=rr` on a fresh client; the iff yields no
`invalid_state` and the second clause yields the token POST. -/
theorem signIn_invalid_state_iff_witness :
    ((⟨WebBrowserResultType.success, [("code", "ABC123"), ("state", "rr")]⟩ :
        BrowserResult).resultType = WebBrowserResultType.success) ∧
    ((signIn (secureOps (clientStorageId cfgC1)) cfgC1
        ⟨WebBrowserResultType.success, [("code", "ABC123"), ("state", "rr")]⟩
        ⟨true, "AT1", some "RT1"⟩ initialSecureClient).2.2 =
      [NetCall.tokenPost cfgC1.clientId "ABC123" (generateRandomString 0)
        (effectiveRedirectUri cfgC1) (sentSecret cfgC1)]) :=
  ⟨rfl,
    (signIn_invalid_state_iff (secureOps (clientStorageId cfgC1)) cfgC1
        ⟨WebBrowserResultType.success, [("code", "ABC123"), ("state", "rr")]⟩
        ⟨true, "AT1", some "RT1"⟩ initialSecureClient rfl).2 ⟨rfl, rfl⟩⟩

/-- C7: every failing `signIn()` execution — browser step not `success`
(`auth_session_failed`), falsy code or state mismatch (`invalid_state`), or
rejected token exchange (`token_exchange_failed`) — leaves the Token Store
unchanged; `isAuthenticated()` afterwards returns the same value as before
the call, and `false` when storage holds no access token. -/
theorem signIn_failure_frame {σ : Type} (S : StorageOps σ)
    (cfg : SalesforceConfig) (browser : BrowserResult) (tok : TokenResponse)
    (cs : ClientState σ) (e : ErrorCode)
    (h : (signIn S cfg browser tok cs).1 = Except.error e) :
    (signIn S cfg browser tok cs).2.1.store = cs.store ∧
    (isAuthenticated S (signIn S cfg browser tok cs).2.1).1 =
      (isAuthenticated S cs).1 ∧
    (S.getItem cs.store "accessToken" = none →
      (isAuthenticated S (signIn S cfg browser tok cs).2.1).1 = false) := by
  have hstore : (signIn S cfg browser tok cs).2.1.store = cs.store := by
    unfold signIn at h ⊢
    by_cases hb : browser.resultType = WebBrowserResultType.success
    · rw [if_neg (by simp [hb])] at h ⊢
      by_cases hcond : tsTruthy (getParam browser.query "code") = false ∨
          getParam browser.query "state" ≠ some (generateRandomString (cs.rng + 1))
      · rw [if_pos hcond]
      · rw [if_neg hcond] at h ⊢
        by_cases hok : tok.ok = false
        · exact (exchange_fail_frame S cfg tok _ _ _ cs.store hok).2
        · have := (exchange_ok_store S cfg tok
            ((getParam browser.query "code").getD "") (generateRandomString cs.rng)
            (effectiveRedirectUri cfg) cs.store (by simpa using hok)).1
          rw [this] at h
          exact Except.noConfusion h
    · rw [if_pos (by simp [hb])]
  refine ⟨hstore, ?_, ?_⟩
  · unfold isAuthenticated
    rw [hstore]
  · intro hnone
    unfold isAuthenticated
    rw [hstore, hnone]
    rfl

/-- Witness for C7: a browser step cancelled by the user on a fresh client;
the call fails with `auth_session_failed` and the conclusions follow. -/
theorem signIn_failure_frame_witness :
    (signIn (secureOps (clientStorageId cfgC1)) cfgC1
        ⟨WebBrowserResultType.cancel, []⟩ ⟨true, "AT", none⟩
        initialSecureClient).1 = Except.error ErrorCode.auth_session_failed ∧
    (signIn (secureOps (clientStorageId cfgC1)) cfgC1
        ⟨WebBrowserResultType.cancel, []⟩ ⟨true, "AT", none⟩
        initialSecureClient).2.1.store = initialSecureClient.store :=
  ⟨rfl,
    (signIn_failure_frame (secureOps (clientStorageId cfgC1)) cfgC1
        ⟨WebBrowserResultType.cancel, []⟩ ⟨true, "AT", none⟩
        initialSecureClient ErrorCode.auth_session_failed rfl).1⟩

/-- C4 (amended): the token exchange issues exactly one POST (no retry); a
non-success response fails with `token_exchange_failed` and leaves the
store unchanged; a success response stores `access_token` under the
`accessToken` key in every case, and stores `refresh_token` under the
`refreshToken` key exactly when `refresh_token` is present **and
non-empty** in the response, leaving the `refreshToken` entry unchanged
otherwise. -/
theorem exchange_token_amended (id : String) (cfg : SalesforceConfig)
    (tok : TokenResponse) (code ver uri : String) (st : SecureState) :
    ((exchangeCodeForToken (secureOps id) cfg tok code ver uri st).2.2 =
      [NetCall.tokenPost cfg.clientId code ver uri (sentSecret cfg)]) ∧
    (tok.ok = false →
      (exchangeCodeForToken (secureOps id) cfg tok code ver uri st).1 =
          Except.error ErrorCode.token_exchange_failed ∧
        (exchangeCodeForToken (secureOps id) cfg tok code ver uri st).2.1 = st) ∧
    (tok.ok = true →
      SecureStorage.getItem id
          (exchangeCodeForToken (secureOps id) cfg tok code ver uri st).2.1
          "accessToken" = some tok.access_token ∧
        (tsTruthy tok.refresh_token = true →
          SecureStorage.getItem id
            (exchangeCodeForToken (secureOps id) cfg tok code ver uri st).2.1
            "refreshToken" = some (tok.refresh_token.getD "")) ∧
        (tsTruthy tok.refresh_token = false →
          SecureStorage.getItem id
            (exchangeCodeForToken (secureOps id) cfg tok code ver uri st).2.1
            "refreshToken" = SecureStorage.getItem id st "refreshToken")) := by
  refine ⟨exchange_calls _ _ _ _ _ _ _,
    fun hok => exchange_fail_frame _ _ _ _ _ _ _ hok, fun hok => ?_⟩
  have hst := (exchange_ok_store (secureOps id) cfg tok code ver uri st hok).2
  rw [hst]
  by_cases hr : tsTruthy tok.refresh_token = true
  · rw [if_pos hr]
    refine ⟨?_, fun _ => ?_, fun hcontra => absurd hr (by simp [hcontra])⟩
    · rw [show (secureOps id).setItem = SecureStorage.setItem id from rfl]
      rw [secure_get_set_ne id _ "refreshToken" _ "accessToken" (by decide)]
      exact secure_get_set_self id st "accessToken" tok.access_token
    · exact secure_get_set_self id _ "refreshToken" _
  · rw [if_neg hr]
    refine ⟨secure_get_set_self id st "accessToken" tok.access_token,
      fun hcontra => absurd hcontra hr, fun _ => ?_⟩
    exact secure_get_set_ne id st "accessToken" tok.access_token "refreshToken" (by decide)

/-- Counterexample to C4 as stated: a success response whose
`refresh_token` field is present with the empty-string value; the claim's
biconditional demands it be stored under `refreshToken`, but the exchange
stores nothing there. -/
theorem exchange_refresh_claim_counterexample :
    (TokenResponse.mk true "AT" (some "")).refresh_token ≠ none ∧
    (TokenResponse.mk true "AT" (some "")).ok = true ∧
    (exchangeCodeForToken (secureOps "salesforce.C1") cfgC1
        (TokenResponse.mk true "AT" (some "")) "c" "v" "u" SecureState.empty).1 =
      Except.ok () ∧
    SecureStorage.getItem "salesforce.C1"
      (exchangeCodeForToken (secureOps "salesforce.C1") cfgC1
        (TokenResponse.mk true "AT" (some "")) "c" "v" "u" SecureState.empty).2.1
      "refreshToken" = none := by
  refine ⟨by simp, rfl, rfl, rfl⟩

/-- Witness for C4 (amended): a success response carrying both tokens on an
empty store. -/
theorem exchange_token_amended_witness :
    (TokenResponse.mk true "AT1" (some "RT1")).ok = true ∧
    tsTruthy (TokenResponse.mk true "AT1" (some "RT1")).refresh_token = true ∧
    SecureStorage.getItem "salesforce.C1"
      (exchangeCodeForToken (secureOps "salesforce.C1") cfgC1
        (TokenResponse.mk true "AT1" (some "RT1")) "c" "v" "u"
        SecureState.empty).2.1 "accessToken" = some "AT1" ∧
    SecureStorage.getItem "salesforce.C1"
      (exchangeCodeForToken (secureOps "salesforce.C1") cfgC1
        (TokenResponse.mk true "AT1" (some "RT1")) "c" "v" "u"
        SecureState.empty).2.1 "refreshToken" =
      some ((TokenResponse.mk true "AT1" (some "RT1")).refresh_token.getD "") :=
  ⟨rfl, rfl,
    ((exchange_token_amended "salesforce.C1" cfgC1
        (TokenResponse.mk true "AT1" (some "RT1")) "c" "v" "u"
        SecureState.empty).2.2 rfl).1,
    ((exchange_token_amended "salesforce.C1" cfgC1
        (TokenResponse.mk true "AT1" (some "RT1")) "c" "v" "u"
        SecureState.empty).2.2 rfl).2.1 rfl⟩

/-- C10: a success response with an `access_token` but no `refresh_token`
field overwrites the `accessToken` entry and leaves the `refreshToken`
entry exactly as it was — a stale refresh token from an earlier sign-in
persists across the re-authentication. -/
theorem exchange_stale_refresh_persists (id : String) (cfg : SalesforceConfig)
    (tok : TokenResponse) (code ver uri : String) (st : SecureState)
    (hok : tok.ok = true) (hr : tok.refresh_token = none) :
    SecureStorage.getItem id
        (exchangeCodeForToken (secureOps id) cfg tok code ver uri st).2.1
        "accessToken" = some tok.access_token ∧
      SecureStorage.getItem id
        (exchangeCodeForToken (secureOps id) cfg tok code ver uri st).2.1
        "refreshToken" = SecureStorage.getItem id st "refreshToken" := by
  have hst := (exchange_ok_store (secureOps id) cfg tok code ver uri st hok).2
  rw [hst, if_neg (by simp [hr, tsTruthy])]
  exact ⟨secure_get_set_self id st "accessToken" tok.access_token,
    secure_get_set_ne id st "accessToken" tok.access_token "refreshToken" (by decide)⟩

/-- Witness for C10: a store already holding refresh token `RT1`; a
re-authentication response omitting `refresh_token` leaves `RT1` in place
(and the entry evaluates to `RT1` both before and after). -/
theorem exchange_stale_refresh_persists_witness :
    (TokenResponse.mk true "AT2" none).ok = true ∧
    (TokenResponse.mk true "AT2" none).refresh_token = none ∧
    SecureStorage.getItem "salesforce.C1"
      (SecureStorage.setItem "salesforce.C1" SecureState.empty "refreshToken" "RT1")
      "refreshToken" = some "RT1" ∧
    SecureStorage.getItem "salesforce.C1"
      (exchangeCodeForToken (secureOps "salesforce.C1") cfgC1
        (TokenResponse.mk true "AT2" none) "c" "v" "u"
        (SecureStorage.setItem "salesforce.C1" SecureState.empty "refreshToken" "RT1")).2.1
      "refreshToken" =
      SecureStorage.getItem "salesforce.C1"
        (SecureStorage.setItem "salesforce.C1" SecureState.empty "refreshToken" "RT1")
        "refreshToken" :=
  ⟨rfl, rfl, rfl,
    (exchange_stale_refresh_persists "salesforce.C1" cfgC1
      (TokenResponse.mk true "AT2" none) "c" "v" "u"
      (SecureStorage.setItem "salesforce.C1" SecureState.empty "refreshToken" "RT1")
      rfl rfl).2⟩

/-- C5 (amended): in every store state, `isAuthenticated()` returns `true`
if and only if a **non-empty** access token value is present in storage
under the `accessToken` key, and the check performs no network call. -/
theorem isAuthenticated_amended {σ : Type} (S : StorageOps σ) (cs : ClientState σ) :
    ((isAuthenticated S cs).1 = true ↔
      ∃ s, S.getItem cs.store "accessToken" = some s ∧ s ≠ "") ∧
    (isAuthenticated S cs).2 = [] := by
  refine ⟨?_, rfl⟩
  unfold isAuthenticated
  cases h : S.getItem cs.store "accessToken" with
  | none => simp [tsTruthy, h]
  | some s => simp [tsTruthy, h]

/-- Counterexample to C5 as stated: a state reached by a completed sign-in
whose token response carried `access_token: ""`; an access token value is
present in storage, yet `isAuthenticated()` reports `false`. -/
theorem isAuthenticated_claim_counterexample :
    SecureStorage.getItem (clientStorageId cfgC1)
        (secureClientRun cfgC1 [emptyTokenSignIn]).store "accessToken" = some "" ∧
    (isAuthenticated (secureOps (clientStorageId cfgC1))
        (secureClientRun cfgC1 [emptyTokenSignIn])).1 = false := by
  exact ⟨rfl, rfl⟩

/-- C8 (amended): `getUserInfo()` with no access token entry fails with
`not_authenticated` and performs no network call; with a **non-empty**
stored access token it issues a GET carrying that token as a Bearer
authorization, failing with `userinfo_request_failed` exactly on a
non-success response. -/
theorem getUserInfo_amended {σ : Type} (S : StorageOps σ)
    (resp : UserInfoResponse) (cs : ClientState σ) :
    (S.getItem cs.store "accessToken" = none →
      getUserInfo S resp cs = (Except.error ErrorCode.not_authenticated, [])) ∧
    (∀ t, S.getItem cs.store "accessToken" = some t → t ≠ "" →
      (getUserInfo S resp cs).2 = [NetCall.userinfoGet ("Bearer " ++ t)] ∧
      (resp.ok = false →
        (getUserInfo S resp cs).1 = Except.error ErrorCode.userinfo_request_failed) ∧
      (resp.ok = true → (getUserInfo S resp cs).1 = Except.ok resp.body)) := by
  constructor
  · intro hnone
    unfold getUserInfo
    rw [hnone]
    rfl
  · intro t ht hne
    unfold getUserInfo
    rw [ht]
    rw [if_neg (by simp [tsTruthy, hne])]
    by_cases hok : resp.ok = false
    · rw [if_pos hok]
      exact ⟨rfl, fun _ => rfl, fun htr => absurd htr (by simp [hok])⟩
    · rw [if_neg hok]
      exact ⟨rfl, fun hfa => absurd hfa hok, fun _ => rfl⟩

/-- Counterexample to C8 as stated: in the state reached by a sign-in that
stored an empty-string access token, a token value is present in storage,
yet `getUserInfo()` fails with `not_authenticated` and issues no request. -/
theorem getUserInfo_claim_counterexample :
    SecureStorage.getItem (clientStorageId cfgC1)
        (secureClientRun cfgC1 [emptyTokenSignIn]).store "accessToken" = some "" ∧
    getUserInfo (secureOps (clientStorageId cfgC1))
        ⟨true, ⟨"n", "e", "p", "u", "pr"⟩⟩ (secureClientRun cfgC1 [emptyTokenSignIn]) =
      (Except.error ErrorCode.not_authenticated, []) := by
  exact ⟨rfl, rfl⟩

/-- Witness for C8 (amended): a fresh client with empty storage
(`not_authenticated`, no call), and a client holding token `AT1` whose
userinfo response succeeds. -/
theorem getUserInfo_amended_witness :
    SecureStorage.getItem "salesforce.C1" SecureState.empty "accessToken" = none ∧
    getUserInfo (secureOps "salesforce.C1") ⟨true, ⟨"n", "e", "p", "u", "pr"⟩⟩
        ⟨SecureState.empty, 0⟩ = (Except.error ErrorCode.not_authenticated, []) ∧
    SecureStorage.getItem "salesforce.C1"
      (SecureStorage.setItem "salesforce.C1" SecureState.empty "accessToken" "AT1")
      "accessToken" = some "AT1" ∧
    (getUserInfo (secureOps "salesforce.C1") ⟨true, ⟨"n", "e", "p", "u", "pr"⟩⟩
        ⟨SecureStorage.setItem "salesforce.C1" SecureState.empty "accessToken" "AT1", 0⟩).2 =
      [NetCall.userinfoGet ("Bearer " ++ "AT1")] :=
  ⟨rfl,
    (getUserInfo_amended (secureOps "salesforce.C1") ⟨true, ⟨"n", "e", "p", "u", "pr"⟩⟩
      ⟨SecureState.empty, 0⟩).1 rfl,
    rfl,
    ((getUserInfo_amended (secureOps "salesforce.C1") ⟨true, ⟨"n", "e", "p", "u", "pr"⟩⟩
      ⟨SecureStorage.setItem "salesforce.C1" SecureState.empty "accessToken" "AT1", 0⟩).2
      "AT1" rfl (by decide)).1⟩

theorem signIn_secure_store_disj (id : String) (cfg : SalesforceConfig)
    (browser : BrowserResult) (tok : TokenResponse) (cs : ClientState SecureState) :
    (signIn (secureOps id) cfg browser tok cs).2.1.store = cs.store ∨
    SecureStorage.getItem id (signIn (secureOps id) cfg browser tok cs).2.1.store
      "accessToken" = some tok.access_token := by
  unfold signIn
  by_cases hb : browser.resultType = WebBrowserResultType.success
  · rw [if_neg (by simp [hb])]
    by_cases hcond : tsTruthy (getParam browser.query "code") = false ∨
        getParam browser.query "state" ≠ some (generateRandomString (cs.rng + 1))
    · rw [if_pos hcond]
      exact Or.inl rfl
    · rw [if_neg hcond]
      by_cases hok : tok.ok = false
      · exact Or.inl (exchange_fail_frame (secureOps id) cfg tok _ _ _ cs.store hok).2
      · right
        have hst := (exchange_ok_store (secureOps id) cfg tok
          ((getParam browser.query "code").getD "") (generateRandomString cs.rng)
          (effectiveRedirectUri cfg) cs.store (by simpa using hok)).2
        show SecureStorage.getItem id
          (exchangeCodeForToken (secureOps id) cfg tok _ _ _ cs.store).2.1
          "accessToken" = some tok.access_token
        rw [hst]
        by_cases hr : tsTruthy tok.refresh_token = true
        · rw [if_pos hr]
          rw [show (secureOps id).setItem = SecureStorage.setItem id from rfl]
          rw [secure_get_set_ne id _ "refreshToken" _ "accessToken" (by decide)]
          exact secure_get_set_self id cs.store "accessToken" tok.access_token
        · rw [if_neg hr]
          exact secure_get_set_self id cs.store "accessToken" tok.access_token
  · rw [if_pos (by simp [hb])]
    exact Or.inl rfl

theorem signOut_secure_cases (id : String) (cfg : SalesforceConfig)
    (cs : ClientState SecureState) :
    ((signOut (secureOps id) cfg cs).1 = cs ∧ (signOut (secureOps id) cfg cs).2 = []) ∨
    (SecureStorage.getItem id (signOut (secureOps id) cfg cs).1.store "accessToken" = none ∧
      SecureStorage.getItem id (signOut (secureOps id) cfg cs).1.store "refreshToken" = none) := by
  unfold signOut
  by_cases ht : tsTruthy ((secureOps id).getItem cs.store "accessToken") = true
  · rw [if_pos ht]
    right
    constructor
    · rw [show (secureOps id).removeItem = SecureStorage.removeItem id from rfl]
      rw [secure_get_remove_ne id _ "refreshToken" "accessToken" (by decide)]
      exact secure_get_remove_self id cs.store "accessToken"
    · rw [show (secureOps id).removeItem = SecureStorage.removeItem id from rfl]
      exact secure_get_remove_self id _ "refreshToken"
  · rw [if_neg ht]
    exact Or.inl ⟨rfl, rfl⟩

/-- Reachability invariant of the non-web client: whenever the `accessToken`
entry is absent, the `refreshToken` entry is absent too (the exchange
always stores the access token before the refresh token, and sign-out
removes both). -/
theorem secure_client_invariant (cfg : SalesforceConfig) (ops : List ClientOp) :
    SecureStorage.getItem (clientStorageId cfg) (secureClientRun cfg ops).store
        "accessToken" = none →
      SecureStorage.getItem (clientStorageId cfg) (secureClientRun cfg ops).store
        "refreshToken" = none := by
  suffices h : ∀ cs : ClientState SecureState,
      (SecureStorage.getItem (clientStorageId cfg) cs.store "accessToken" = none →
        SecureStorage.getItem (clientStorageId cfg) cs.store "refreshToken" = none) →
      (SecureStorage.getItem (clientStorageId cfg)
          (runClient (secureOps (clientStorageId cfg)) cfg ops cs).store "accessToken" = none →
        SecureStorage.getItem (clientStorageId cfg)
          (runClient (secureOps (clientStorageId cfg)) cfg ops cs).store "refreshToken" = none) by
    exact h initialSecureClient (fun _ => rfl)
  induction ops with
  | nil => exact fun cs h => h
  | cons op ops ih =>
      intro cs h
      refine ih (stepClient (secureOps (clientStorageId cfg)) cfg op cs) ?_
      cases op with
      | opSignIn browser tok =>
          rcases signIn_secure_store_disj (clientStorageId cfg) cfg browser tok cs with
            he | hsome
          · intro hacc
            simp only [stepClient] at hacc ⊢
            rw [he] at hacc ⊢
            exact h hacc
          · intro hacc
            simp only [stepClient] at hacc
            rw [hsome] at hacc
            exact Option.noConfusion hacc
      | opSignOut =>
          rcases signOut_secure_cases (clientStorageId cfg) cfg cs with ⟨he, _⟩ | ⟨ha, hr⟩
          · intro hacc
            simp only [stepClient] at hacc ⊢
            rw [he] at hacc ⊢
            exact h hacc
          · intro _
            simp only [stepClient]
            exact hr
      | opGetUserInfo resp => exact h
      | opIsAuthenticated => exact h

theorem signOut_noop (id : String) (cfg : SalesforceConfig)
    (cs : ClientState SecureState)
    (h : SecureStorage.getItem id cs.store "accessToken" = none) :
    signOut (secureOps id) cfg cs = (cs, []) := by
  unfold signOut
  rw [if_neg (by rw [show (secureOps id).getItem =
      SecureStorage.getItem id from rfl, h]; simp [tsTruthy])]

/-- C6 (amended): `signOut()` in a reachable state with no `accessToken`
entry performs no network call, changes nothing, and leaves storage empty
of token entries; calling `signOut()` twice in a row is safe (the second
call changes nothing and performs no network call); and when a **non-empty**
access token is stored, `signOut()` posts exactly that token to the
revocation endpoint and then removes both the `accessToken` and
`refreshToken` entries. -/
theorem signOut_amended (cfg : SalesforceConfig) :
    (∀ ops,
      SecureStorage.getItem (clientStorageId cfg) (secureClientRun cfg ops).store
          "accessToken" = none →
        (signOut (secureOps (clientStorageId cfg)) cfg (secureClientRun cfg ops)).2 = [] ∧
        (signOut (secureOps (clientStorageId cfg)) cfg (secureClientRun cfg ops)).1 =
          secureClientRun cfg ops ∧
        SecureStorage.getItem (clientStorageId cfg)
          (signOut (secureOps (clientStorageId cfg)) cfg (secureClientRun cfg ops)).1.store
          "accessToken" = none ∧
        SecureStorage.getItem (clientStorageId cfg)
          (signOut (secureOps (clientStorageId cfg)) cfg (secureClientRun cfg ops)).1.store
          "refreshToken" = none) ∧
    (∀ (id : String) (cs : ClientState SecureState) (t : String),
      SecureStorage.getItem id cs.store "accessToken" = some t → t ≠ "" →
        (signOut (secureOps id) cfg cs).2 =
          [NetCall.revokePost t cfg.clientId (sentSecret cfg)] ∧
        SecureStorage.getItem id (signOut (secureOps id) cfg cs).1.store
          "accessToken" = none ∧
        SecureStorage.getItem id (signOut (secureOps id) cfg cs).1.store
          "refreshToken" = none) ∧
    (∀ (id : String) (cs : ClientState SecureState),
      (signOut (secureOps id) cfg (signOut (secureOps id) cfg cs).1).1 =
        (signOut (secureOps id) cfg cs).1 ∧
      (signOut (secureOps id) cfg (signOut (secureOps id) cfg cs).1).2 = []) := by
  refine ⟨?_, ?_, ?_⟩
  · intro ops hacc
    have hrefresh := secure_client_invariant cfg ops hacc
    rw [signOut_noop (clientStorageId cfg) cfg _ hacc]
    exact ⟨rfl, rfl, hacc, hrefresh⟩
  · intro id cs t ht hne
    have htr : tsTruthy ((secureOps id).getItem cs.store "accessToken") = true := by
      rw [show (secureOps id).getItem = SecureStorage.getItem id from rfl, ht]
      simp [tsTruthy, hne]
    unfold signOut
    rw [if_pos htr]
    refine ⟨?_, ?_, ?_⟩
    · rw [show (secureOps id).getItem = SecureStorage.getItem id from rfl, ht]
      rfl
    · rw [show (secureOps id).removeItem = SecureStorage.removeItem id from rfl]
      rw [secure_get_remove_ne id _ "refreshToken" "accessToken" (by decide)]
      exact secure_get_remove_self id cs.store "accessToken"
    · rw [show (secureOps id).removeItem = SecureStorage.removeItem id from rfl]
      exact secure_get_remove_self id _ "refreshToken"
  · intro id cs
    rcases signOut_secure_cases id cfg cs with ⟨he, hc⟩ | ⟨ha, _⟩
    · rw [he]
      exact ⟨he, hc⟩
    · rw [signOut_noop id cfg _ ha]
      exact ⟨rfl, rfl⟩

/-- Counterexample to C6 as stated: in the reachable state whose stored
access token is the empty string, an access token entry *is* present, yet
`signOut()` performs no revocation call and removes nothing. -/
theorem signOut_claim_counterexample :
    SecureStorage.getItem (clientStorageId cfgC1)
        (secureClientRun cfgC1 [emptyTokenSignIn]).store "accessToken" ≠ none ∧
    (signOut (secureOps (clientStorageId cfgC1)) cfgC1
        (secureClientRun cfgC1 [emptyTokenSignIn])).2 = [] ∧
    (signOut (secureOps (clientStorageId cfgC1)) cfgC1
        (secureClientRun cfgC1 [emptyTokenSignIn])).1 =
      secureClientRun cfgC1 [emptyTokenSignIn] := by
  exact ⟨by decide, rfl, rfl⟩

/-- Witness for C6 (amended): the fresh client (no token: no call, no
change) and a client holding the non-empty token `AT1` (revocation POST,
both entries removed). -/
theorem signOut_amended_witness :
    (signOut (secureOps (clientStorageId cfgC1)) cfgC1 (secureClientRun cfgC1 [])).2 = [] ∧
    (signOut (secureOps "salesforce.C1") cfgC1
        ⟨SecureStorage.setItem "salesforce.C1" SecureState.empty "accessToken" "AT1", 0⟩).2 =
      [NetCall.revokePost "AT1" cfgC1.clientId (sentSecret cfgC1)] ∧
    SecureStorage.getItem "salesforce.C1"
      (signOut (secureOps "salesforce.C1") cfgC1
        ⟨SecureStorage.setItem "salesforce.C1" SecureState.empty "accessToken" "AT1", 0⟩).1.store
      "accessToken" = none :=
  ⟨((signOut_amended cfgC1).1 [] rfl).1,
    ((signOut_amended cfgC1).2.1 "salesforce.C1"
      ⟨SecureStorage.setItem "salesforce.C1" SecureState.empty "accessToken" "AT1", 0⟩
      "AT1" rfl (by decide)).1,
    ((signOut_amended cfgC1).2.1 "salesforce.C1"
      ⟨SecureStorage.setItem "salesforce.C1" SecureState.empty "accessToken" "AT1", 0⟩
      "AT1" rfl (by decide)).2.1⟩

/-! ### PKCE code challenge -/

theorem filterMap_urlSafe_replicate_pad (n : Nat) :
    (List.replicate n '=').filterMap urlSafeOfStd = [] := by
  induction n with
  | zero => rfl
  | succ n ih => simp [List.replicate_succ, List.filterMap_cons, urlSafeOfStd, ih]

theorem urlSafe_std : ∀ i < 64,
    urlSafeOfStd (stdAlphabet.getD i 'A') = some (urlAlphabet.getD i 'A') := by
  decide

theorem base64Sextets_lt :
    ∀ (bytes : List Nat), (∀ b ∈ bytes, b < 256) → ∀ i ∈ base64Sextets bytes, i < 64
  | [], _, i, hi => by simp [base64Sextets] at hi
  | [b1], h, i, hi => by
      have hb1 : b1 < 256 := h b1 (by simp)
      simp only [base64Sextets, List.mem_cons, List.not_mem_nil, or_false] at hi
      rcases hi with h1 | h2 <;> omega
  | [b1, b2], h, i, hi => by
      have hb1 : b1 < 256 := h b1 (by simp)
      have hb2 : b2 < 256 := h b2 (by simp)
      simp only [base64Sextets, List.mem_cons, List.not_mem_nil, or_false] at hi
      rcases hi with h1 | h2 | h3 <;> omega
  | b1 :: b2 :: b3 :: rest, h, i, hi => by
      have hb1 : b1 < 256 := h b1 (by simp)
      have hb2 : b2 < 256 := h b2 (by simp)
      have hb3 : b3 < 256 := h b3 (by simp)
      simp only [base64Sextets, List.mem_cons] at hi
      rcases hi with h1 | h2 | h3 | h4 | hrest
      · omega
      · omega
      · omega
      · omega
      · exact base64Sextets_lt rest (fun b hb => h b (by simp [hb])) i hrest

theorem filterMap_eq_map_of_forall {α β : Type} (f : α → Option β) (g : α → β) :
    ∀ l : List α, (∀ x ∈ l, f x = some (g x)) → l.filterMap f = l.map g
  | [], _ => rfl
  | x :: xs, h => by
      have hx := h x (by simp)
      simp only [List.filterMap_cons, hx, List.map_cons]
      rw [filterMap_eq_map_of_forall f g xs (fun y hy => h y (by simp [hy]))]

theorem sha256_bytes_lt (msg : List Nat) : ∀ b ∈ sha256 msg, b < 256 := by
  intro b hb
  unfold sha256 at hb
  rw [List.mem_flatMap] at hb
  rcases hb with ⟨w, _, hw⟩
  simp only [wordBytesBE, List.mem_cons, List.not_mem_nil, or_false] at hw
  rcases hw with h1 | h2 | h3 | h4 <;> omega

theorem b64_url_of_std (bytes : List Nat) (h : ∀ b ∈ bytes, b < 256) :
    String.mk ((base64Standard bytes).data.filterMap urlSafeOfStd) =
      base64UrlNoPad bytes := by
  unfold base64Standard base64UrlNoPad
  apply congrArg String.mk
  rw [string_data_mk, List.filterMap_append, filterMap_urlSafe_replicate_pad,
    List.append_nil, List.filterMap_map]
  exact filterMap_eq_map_of_forall _ _ (base64Sextets bytes)
    (fun i hi => urlSafe_std i (base64Sextets_lt bytes h i hi))

/-- C9: for every verifier string `v`, `generateCodeChallenge v` is
deterministic and equals the SHA-256 digest of `v` encoded in base64url
with no padding, per the PKCE S256 method. -/
theorem codeChallenge_correct (v : String) :
    generateCodeChallenge v = codeChallengeSpec v ∧
    ∀ w, w = v → generateCodeChallenge w = generateCodeChallenge v := by
  refine ⟨?_, fun w hw => by rw [hw]⟩
  unfold generateCodeChallenge codeChallengeSpec
  exact b64_url_of_std _ (sha256_bytes_lt _)

/-- Witness for C9: the theorem applied to the verifier `"abc"`. -/
theorem codeChallenge_correct_witness :
    ("abc" : String) = "abc" ∧
    generateCodeChallenge "abc" = generateCodeChallenge "abc" :=
  ⟨rfl, (codeChallenge_correct "abc").2 "abc" rfl⟩

end SfAuth
